import Mathlib

/-!
Verification development for the ENRAF report extractor (`run.py`).

The embedding models, over plain Lean data:
  - the Source Reader normalization applied in `MDBReader.read_table_data`
    (temperature rounded to 2 decimals, GSV cast to int, timestamp rounded
    to 2-minute buckets);
  - the wide pivot `Grade_Extract` (filter by grade substring, fixed tank
    order, one row per distinct timestamp, placeholder blocks);
  - the grade selection `save_to_csv` (numeric codes, expansion of code 5);
  - the aggregation loop `combine_mdb_files_to_single_csv` (skip-and-log
    per-file failures, empty-result reporting).

Numbers are embedded as exact rationals built with `mkRat`; timestamps are
seconds since an epoch as `Nat`; the interactive `input()` call and the
per-file read results are explicit parameters.  File writes are modelled as
returned `CsvFile` values.
-/

namespace EnrafReport

/-! ### String helpers: faithful models of the Python string operations used -/

/-- Lexicographic comparison of character lists by code point, the order
Python's `sorted` uses on strings. -/
def charListLe : List Char → List Char → Bool
  | [], _ => true
  | _ :: _, [] => false
  | a :: as, b :: bs => if a = b then charListLe as bs else decide (a < b)

/-- Lexicographic order on strings (code-point order, as in Python). -/
def strLe (a b : String) : Bool := charListLe a.data b.data

/-- `strLe` as a proposition, used as the sorting relation. -/
def strLeP (a b : String) : Prop := strLe a b = true

instance : DecidableRel strLeP := fun a b => decidable_of_iff (strLe a b = true) Iff.rfl

/-- Does the second list start with the first? -/
def startsWithL : List Char → List Char → Bool
  | [], _ => true
  | _ :: _, [] => false
  | a :: as, b :: bs => a == b && startsWithL as bs

/-- Substring test on character lists (`pat in s` in Python). -/
def hasSubList (pat : List Char) : List Char → Bool
  | [] => startsWithL pat []
  | b :: bs => startsWithL pat (b :: bs) || hasSubList pat bs

/-- Lower-casing of a string, character by character. -/
def lowerStr (s : String) : String := String.mk (s.data.map Char.toLower)

/-- Case-insensitive substring containment: the model of
`Series.str.contains(pat, case=False)` applied to one string. -/
def containsCI (s pat : String) : Bool :=
  hasSubList (lowerStr pat).data (lowerStr s).data

/-- Whitespace recognised by Python's `str.strip()`. -/
def isSpaceChar (c : Char) : Bool :=
  c == ' ' || c == '\t' || c == '\n' || c == '\r' || c == '\x0b' || c == '\x0c'

/-- Model of Python's `str.strip()`. -/
def stripStr (s : String) : String :=
  String.mk (((s.data.dropWhile isSpaceChar).reverse.dropWhile isSpaceChar).reverse)

/-- Helper for `splitComma`: accumulates the current field (reversed). -/
def splitCommaAux : List Char → List Char → List String
  | [], acc => [String.mk acc.reverse]
  | c :: cs, acc =>
      if c = ',' then String.mk acc.reverse :: splitCommaAux cs []
      else splitCommaAux cs (c :: acc)

/-- Model of Python's `str.split(",")` (note `"".split(",") == [""]`). -/
def splitComma (s : String) : List String := splitCommaAux s.data []

/-! ### Numeric normalization (`read_table_data`, run.py lines 85-92) -/

/-- Round half to even of the fraction `n / d` (`d` positive): the rounding
mode used by pandas both for `Series.round` and `Timestamp.round`. -/
def rheDiv (n : Int) (d : Nat) : Int :=
  if 2 * Int.emod n d < (d : Int) then Int.ediv n d
  else if (d : Int) < 2 * Int.emod n d then Int.ediv n d + 1
  else if Int.emod (Int.ediv n d) 2 = 0 then Int.ediv n d
  else Int.ediv n d + 1

/-- Model of `df["PRODUCT_TEMP"].round(2)` on one exact value. -/
def round2 (x : Rat) : Rat := mkRat (rheDiv (100 * x.num) x.den) 100

/-- Model of `df["GSV"].astype(int)` on one exact value: the fractional part
is dropped (truncation toward zero), not rounded. -/
def ratTrunc (x : Rat) : Int := Int.tdiv x.num x.den

/-- Model of `df["BACKGROUND_TIME_STAMP"].dt.round('2min')` on a timestamp
in seconds: round to the nearest multiple of 120 seconds, ties to the even
multiple. -/
def round2min (t : Nat) : Nat :=
  if t % 120 < 60 then 120 * (t / 120)
  else if 60 < t % 120 then 120 * (t / 120 + 1)
  else if (t / 120) % 2 = 0 then 120 * (t / 120)
  else 120 * (t / 120 + 1)

/-! ### Data model -/

/-- One raw `TankRecords` row as returned by the SQL select, before the
normalization in `read_table_data`.  The timestamp is in seconds. -/
structure RawReading where
  background_time_stamp : Nat
  tank_name : String
  product_name : String
  product_temp : Rat
  correction_factor : Rat
  gsv : Rat
  product_level : Rat
deriving DecidableEq

/-- One normalized reading (a row of the DataFrame `read_table_data`
returns): temperature rounded to 2 decimals, GSV an integer, timestamp in
2-minute buckets. -/
structure TankReading where
  background_time_stamp : Nat
  tank_name : String
  product_name : String
  product_temp : Rat
  correction_factor : Rat
  gsv : Int
  product_level : Rat
deriving DecidableEq

/-- The per-row normalization performed by `read_table_data`. -/
def normalize (r : RawReading) : TankReading :=
  { background_time_stamp := round2min r.background_time_stamp
    tank_name := r.tank_name
    product_name := r.product_name
    product_temp := round2 r.product_temp
    correction_factor := r.correction_factor
    gsv := ratTrunc r.gsv
    product_level := r.product_level }

/-- Model of `MDBReader.read_table_data` on an already-fetched table: the
SQL select yields the raw rows, then each is normalized. -/
def read_table_data (raws : List RawReading) : List TankReading :=
  raws.map normalize

/-- One CSV cell of the wide report: a timestamp, a string, a number, or
the `None` placeholder. -/
inductive Cell where
  | null : Cell
  | ts : Nat → Cell
  | str : String → Cell
  | rat : Rat → Cell
  | int : Int → Cell
deriving DecidableEq

/-- A written CSV file: its name, header row and data rows. -/
structure CsvFile where
  name : String
  header : List String
  rows : List (List Cell)
deriving DecidableEq

/-! ### The Grade Pivot (`Grade_Extract`, run.py lines 140-191) -/

/-- The key `sort_values(by=["BACKGROUND_TIME_STAMP", "TANK_NAME"])` sorts
by. -/
def readLE (a b : TankReading) : Prop :=
  a.background_time_stamp < b.background_time_stamp ∨
    (a.background_time_stamp = b.background_time_stamp ∧
      strLe a.tank_name b.tank_name = true)

instance : DecidableRel readLE := fun a b =>
  decidable_of_iff
    (a.background_time_stamp < b.background_time_stamp ∨
      (a.background_time_stamp = b.background_time_stamp ∧
        strLe a.tank_name b.tank_name = true)) Iff.rfl

/-- Model of the `sort_values` call. -/
def sortReadings (rs : List TankReading) : List TankReading :=
  List.insertionSort readLE rs

/-- Step 1 of the pivot: `combined_df[combined_df['PRODUCT_NAME'].str.contains(grade_name, case=False, na=False)]`. -/
def gradeFilter (grade : String) (rs : List TankReading) : List TankReading :=
  rs.filter (fun r => containsCI r.product_name grade)

/-- Step 2 of the pivot: `tank_order = sorted(ulp_df["TANK_NAME"].unique())`. -/
def tankOrder (fl : List TankReading) : List String :=
  List.insertionSort strLeP ((fl.map TankReading.tank_name).dedup)

/-- Step 3 of the pivot: `sorted(ulp_df["BACKGROUND_TIME_STAMP"].unique())`. -/
def tsAxis (fl : List TankReading) : List Nat :=
  List.insertionSort (fun a b : Nat => a ≤ b)
    ((fl.map TankReading.background_time_stamp).dedup)

/-- The five measured columns copied into each tank block (`tank_cols`). -/
def tank_cols : List String :=
  ["PRODUCT_NAME", "PRODUCT_TEMP", "CORRECTION_FACTOR", "GSV", "PRODUCT_LEVEL"]

/-- One tank block of one wide row: the lookup
`ulp_df[(ulp_df["BACKGROUND_TIME_STAMP"] == ts) & (ulp_df["TANK_NAME"] == tank)]`
followed by either `rec.iloc[0][tank_cols]` or the `None` placeholders. -/
def tankBlock (fl : List TankReading) (t : Nat) (tank : String) : List Cell :=
  match fl.find? (fun r => r.background_time_stamp == t && r.tank_name == tank) with
  | some r =>
      [Cell.str tank, Cell.str r.product_name, Cell.rat r.product_temp,
        Cell.rat r.correction_factor, Cell.int r.gsv, Cell.rat r.product_level]
  | none => [Cell.str tank, Cell.null, Cell.null, Cell.null, Cell.null, Cell.null]

/-- One wide row: `row = [ts]` followed by the blocks of every tank of
`tank_order` in fixed order. -/
def buildRow (fl : List TankReading) (order : List String) (t : Nat) : List Cell :=
  Cell.ts t :: (order.map (tankBlock fl t)).flatten

/-- Model of `Grade_Extract`: filter, sort, fix the tank order, build one
row per distinct timestamp, and write `f"{grade_name} Grade_report.csv"`. -/
def Grade_Extract (combined : List TankReading) (grade_name : String) : CsvFile :=
  { name := grade_name ++ " Grade_report.csv"
    header := "BACKGROUND_TIME_STAMP" ::
      ((tankOrder (sortReadings (gradeFilter grade_name combined))).map
        (fun _ => "TANK_NAME" :: tank_cols)).flatten
    rows := (tsAxis (sortReadings (gradeFilter grade_name combined))).map
      (buildRow (sortReadings (gradeFilter grade_name combined))
        (tankOrder (sortReadings (gradeFilter grade_name combined)))) }

/-! ### Grade selection (`save_to_csv`, run.py lines 98-137) -/

/-- The `grade_map` dictionary. -/
def grade_map (c : String) : Option String :=
  if c = "1" then some "DIESEL"
  else if c = "2" then some "ULP"
  else if c = "3" then some "KERO"
  else if c = "4" then some "JET A1"
  else if c = "5" then some "All"
  else none

/-- The selection logic of `save_to_csv` applied to the stripped input:
`grade_map.get(choice) == "All"` expands to the four grades, otherwise each
comma-separated code is stripped and looked up, unknown codes dropped. -/
def selectedGrades (choice : String) : List String :=
  if grade_map choice = some "All" then ["DIESEL", "ULP", "KERO", "JET A1"]
  else (splitComma choice).filterMap (fun c => grade_map (stripStr c))

/-- What a `save_to_csv` run produces: printed messages and written files. -/
structure SaveResult where
  messages : List String
  files : List CsvFile
deriving DecidableEq

/-- Model of `save_to_csv`; the interactive `input()` answer is the
`rawChoice` parameter. -/
def save_to_csv (combined : List TankReading) (rawChoice : String) : SaveResult :=
  if (selectedGrades (stripStr rawChoice)).isEmpty then
    { messages := ["No valid grade selected. Exiting."], files := [] }
  else
    { messages := (selectedGrades (stripStr rawChoice)).map
        (fun g => "Extracting " ++ g ++ " report...")
      files := (selectedGrades (stripStr rawChoice)).map (Grade_Extract combined) }

/-! ### Aggregation (`combine_mdb_files_to_single_csv`, run.py lines 194-238) -/

instance : DecidableEq (Except String (List RawReading)) := fun a b =>
  match a, b with
  | Except.ok x, Except.ok y =>
      if h : x = y then isTrue (congrArg Except.ok h)
      else isFalse (fun hc => h (Except.ok.inj hc))
  | Except.ok _, Except.error _ => isFalse (fun hc => Except.noConfusion hc)
  | Except.error _, Except.ok _ => isFalse (fun hc => Except.noConfusion hc)
  | Except.error x, Except.error y =>
      if h : x = y then isTrue (congrArg Except.error h)
      else isFalse (fun hc => h (Except.error.inj hc))

/-- One discovered `.mdb` file: its name and the outcome of opening it and
reading its `TankRecords` table (any exception is a single error value). -/
structure SourceFile where
  name : String
  content : Except String (List RawReading)
deriving DecidableEq

/-- The `for file in files` loop body: successful reads are appended to
`all_data`, failures are logged and skipped (`except ... continue`). -/
def combineLoop : List SourceFile → List (List TankReading) × List String
  | [] => ([], [])
  | f :: fs =>
      let rest := combineLoop fs
      match f.content with
      | Except.ok raws =>
          (read_table_data raws :: rest.1, ("Processing: " ++ f.name) :: rest.2)
      | Except.error e =>
          (rest.1, ("Error processing " ++ f.name ++ ": " ++ e) :: rest.2)

/-- What one aggregation run produces. -/
structure CombineResult where
  messages : List String
  combined : Option (List TankReading)
  written : List CsvFile
deriving DecidableEq

/-- Model of `combine_mdb_files_to_single_csv`.  The discovered files and
the interactive grade choice are parameters; note the function body never
uses `output_file`, exactly as in the source. -/
def combine_mdb_files_to_single_csv (files : List SourceFile)
    (output_file : String) (choice : String) : CombineResult :=
  if (combineLoop files).1.isEmpty then
    { messages := (combineLoop files).2 ++
        ["No valid .mdb files found with TankRecords table"]
      combined := none
      written := [] }
  else
    { messages := (combineLoop files).2 ++
        (save_to_csv (combineLoop files).1.flatten choice).messages
      combined := some (combineLoop files).1.flatten
      written := (save_to_csv (combineLoop files).1.flatten choice).files }

/-! ### Observers and concrete sample data used by the verification -/

/-- The `i`-th tank block of a wide row: the six cells following the
timestamp at offset `1 + 6*i`. -/
def rowBlock (row : List Cell) (i : Nat) : List Cell :=
  (row.drop (1 + 6 * i)).take 6

/-- Sample: tank TKA reporting ULP at bucket 120. -/
def sampleA1 : TankReading :=
  { background_time_stamp := 120, tank_name := "TKA", product_name := "ULP 95"
    product_temp := mkRat 2512 100, correction_factor := mkRat 1 1
    gsv := 100, product_level := mkRat 5 1 }

/-- Sample: tank TKB reporting DIESEL at bucket 120. -/
def sampleB1 : TankReading :=
  { background_time_stamp := 120, tank_name := "TKB", product_name := "DIESEL 50"
    product_temp := mkRat 30 1, correction_factor := mkRat 1 1
    gsv := 200, product_level := mkRat 6 1 }

/-- Sample: tank TKA reporting ULP at bucket 240; TKB has no reading there. -/
def sampleA2 : TankReading :=
  { background_time_stamp := 240, tank_name := "TKA", product_name := "ULP 95"
    product_temp := mkRat 25 1, correction_factor := mkRat 1 1
    gsv := 150, product_level := mkRat 7 1 }

/-- The sample unified reading set. -/
def sampleSet : List TankReading := [sampleA1, sampleB1, sampleA2]

/-- A reading whose product name contains "all" only case-insensitively. -/
def sampleSmall : TankReading :=
  { background_time_stamp := 120, tank_name := "TKC", product_name := "Smallest Blend"
    product_temp := mkRat 20 1, correction_factor := mkRat 1 1
    gsv := 10, product_level := mkRat 1 1 }

/-- One raw row used to exercise the aggregation pipeline. -/
def bugRaw : RawReading :=
  { background_time_stamp := 130, tank_name := "TK1", product_name := "DIESEL 50"
    product_temp := mkRat 2512 100, correction_factor := mkRat 9995 10000
    gsv := mkRat 1001 10, product_level := mkRat 55 10 }

/-- A root folder holding one readable `.mdb` file with one record. -/
def bugFiles : List SourceFile :=
  [{ name := "a.mdb", content := Except.ok [bugRaw] }]

/-- A raw row with a negative fractional GSV and a tie-break timestamp. -/
def c8raw : RawReading :=
  { background_time_stamp := 180, tank_name := "TK1", product_name := "KERO"
    product_temp := mkRat 12345 1000, correction_factor := mkRat 1 1
    gsv := mkRat (-7) 2, product_level := mkRat 3 1 }

/-- A readable source file for the failure-policy scenario. -/
def fileOk1 : SourceFile := { name := "a.mdb", content := Except.ok [bugRaw] }

/-- A source file whose read raises (missing table). -/
def fileBad : SourceFile := { name := "b.mdb", content := Except.error "no table" }

/-- A second readable source file for the failure-policy scenario. -/
def fileOk2 : SourceFile := { name := "c.mdb", content := Except.ok [c8raw] }

/-! ### The lexicographic order on strings is total and transitive -/

theorem charListLe_total : ∀ as bs : List Char,
    charListLe as bs = true ∨ charListLe bs as = true := by
  intro as
  induction as with
  | nil => intro bs; left; rfl
  | cons a as ih =>
    intro bs
    cases bs with
    | nil => right; rfl
    | cons b bs =>
      by_cases h : a = b
      · subst h
        simp only [charListLe, if_pos rfl]
        exact ih bs
      · rcases lt_or_gt_of_ne h with hlt | hgt
        · left
          simp only [charListLe, if_neg h]
          exact decide_eq_true hlt
        · right
          have hne : b ≠ a := fun he => h he.symm
          simp only [charListLe, if_neg hne]
          exact decide_eq_true hgt

theorem charListLe_trans : ∀ as bs cs : List Char,
    charListLe as bs = true → charListLe bs cs = true → charListLe as cs = true := by
  intro as
  induction as with
  | nil => intro bs cs _ _; rfl
  | cons a as ih =>
    intro bs cs hab hbc
    cases bs with
    | nil => simp [charListLe] at hab
    | cons b bs =>
      cases cs with
      | nil => simp [charListLe] at hbc
      | cons c cs =>
        by_cases h1 : a = b
        · subst h1
          by_cases h2 : a = c
          · subst h2
            simp only [charListLe, if_pos rfl] at hab hbc ⊢
            exact ih bs cs hab hbc
          · simp only [charListLe, if_pos rfl] at hab
            simp only [charListLe, if_neg h2] at hbc ⊢
            exact hbc
        · by_cases h2 : b = c
          · subst h2
            simp only [charListLe, if_neg h1] at hab ⊢
            exact hab
          · simp only [charListLe, if_neg h1] at hab
            simp only [charListLe, if_neg h2] at hbc
            have hab' : a < b := of_decide_eq_true hab
            have hbc' : b < c := of_decide_eq_true hbc
            have hac : a < c := lt_trans hab' hbc'
            simp only [charListLe, if_neg (ne_of_lt hac)]
            exact decide_eq_true hac

instance : IsTotal String strLeP := ⟨fun a b => charListLe_total a.data b.data⟩

instance : IsTrans String strLeP := ⟨fun a b c => charListLe_trans a.data b.data c.data⟩

/-! ### Shape lemmas for the pivot -/

theorem drop_append_len {α : Type} (l₁ l₂ : List α) (n : Nat) :
    (l₁ ++ l₂).drop (l₁.length + n) = l₂.drop n := by
  induction l₁ with
  | nil => simp
  | cons a t ih => simp [Nat.succ_add, ih]

theorem tankBlock_length (fl : List TankReading) (t : Nat) (tank : String) :
    (tankBlock fl t tank).length = 6 := by
  unfold tankBlock
  split <;> rfl

theorem blocks_length_six (fl : List TankReading) (t : Nat) (order : List String) :
    ∀ b ∈ order.map (tankBlock fl t), b.length = 6 := by
  intro b hb
  rcases List.mem_map.mp hb with ⟨tk, _, rfl⟩
  exact tankBlock_length fl t tk

theorem flatten_length_six {α : Type} (bs : List (List α)) (h : ∀ b ∈ bs, b.length = 6) :
    bs.flatten.length = 6 * bs.length := by
  induction bs with
  | nil => rfl
  | cons b t ih =>
    simp only [List.flatten_cons, List.length_append, List.length_cons]
    rw [h b (List.mem_cons_self b t), ih (fun x hx => h x (List.mem_cons_of_mem b hx))]
    ring

theorem flatten_drop_six {α : Type} (bs : List (List α)) (h : ∀ b ∈ bs, b.length = 6) :
    ∀ i, bs.flatten.drop (6 * i) = (bs.drop i).flatten := by
  induction bs with
  | nil => intro i; simp
  | cons b t ih =>
    intro i
    cases i with
    | zero => simp
    | succ j =>
      have hb : b.length = 6 := h b (List.mem_cons_self b t)
      have h6 : 6 * (j + 1) = b.length + 6 * j := by omega
      rw [List.flatten_cons, h6, drop_append_len, List.drop_succ_cons]
      exact ih (fun x hx => h x (List.mem_cons_of_mem b hx)) j

theorem buildRow_length (fl : List TankReading) (order : List String) (t : Nat) :
    (buildRow fl order t).length = 1 + 6 * order.length := by
  unfold buildRow
  simp only [List.length_cons]
  rw [flatten_length_six _ (blocks_length_six fl t order)]
  simp only [List.length_map]
  omega

theorem rowBlock_buildRow (fl : List TankReading) (order : List String) (t : Nat)
    (i : Nat) (hi : i < order.length) :
    rowBlock (buildRow fl order t) i = tankBlock fl t (order.getD i "") := by
  unfold rowBlock buildRow
  rw [Nat.add_comm 1 (6 * i), List.drop_succ_cons,
    flatten_drop_six _ (blocks_length_six fl t order) i]
  have hi' : i < (order.map (tankBlock fl t)).length := by simpa using hi
  rw [List.drop_eq_getElem_cons hi', List.flatten_cons, List.getElem_map]
  have hlen : (tankBlock fl t order[i]).length = 6 := tankBlock_length fl t _
  conv_lhs => rw [← hlen]
  rw [List.take_left]
  rw [List.getD_eq_getElem order "" hi]

/-! ### Permutation lemmas for the sorting steps -/

theorem sortReadings_perm (rs : List TankReading) : (sortReadings rs).Perm rs :=
  List.perm_insertionSort readLE rs

theorem tankOrder_sorted (fl : List TankReading) :
    List.Sorted strLeP (tankOrder fl) :=
  List.sorted_insertionSort strLeP _

theorem tankOrder_nodup (fl : List TankReading) : (tankOrder fl).Nodup :=
  (List.perm_insertionSort strLeP _).symm.nodup (List.nodup_dedup _)

theorem tankOrder_mem (fl : List TankReading) (t : String) :
    t ∈ tankOrder fl ↔ t ∈ fl.map TankReading.tank_name := by
  unfold tankOrder
  rw [(List.perm_insertionSort strLeP _).mem_iff, List.mem_dedup]

theorem tsAxis_length (fl : List TankReading) :
    (tsAxis fl).length
      = ((fl.map TankReading.background_time_stamp).dedup).length :=
  (List.perm_insertionSort _ _).length_eq

theorem headerBlocks_length_six (order : List String) :
    ∀ b ∈ order.map (fun _ => "TANK_NAME" :: tank_cols), b.length = 6 := by
  intro b hb
  rcases List.mem_map.mp hb with ⟨tk, _, rfl⟩
  rfl

theorem Grade_Extract_rows_def (rs : List TankReading) (g : String) :
    (Grade_Extract rs g).rows
      = (tsAxis (sortReadings (gradeFilter g rs))).map
          (buildRow (sortReadings (gradeFilter g rs))
            (tankOrder (sortReadings (gradeFilter g rs)))) := rfl

/-! ### The claims -/

/-- Claim C1 (code bug): `combine_mdb_files_to_single_csv` is documented to
write the combined records to `output_file`, but the body never uses that
parameter: on a root folder with one readable file and one record, the
combined data exists in memory, yet the only file written is the per-grade
report of the interactive branch, and no file named `output_file`
("Combined Tank records.csv") is ever written. -/
theorem C1_combined_export_never_written :
    (combine_mdb_files_to_single_csv bugFiles "Combined Tank records.csv" "1").combined
        = some [normalize bugRaw] ∧
    (combine_mdb_files_to_single_csv bugFiles "Combined Tank records.csv" "1").written.map
        CsvFile.name = ["DIESEL Grade_report.csv"] ∧
    "Combined Tank records.csv" ∉
      (combine_mdb_files_to_single_csv bugFiles "Combined Tank records.csv" "1").written.map
        CsvFile.name :=
  ⟨by decide, by decide, by decide⟩

/-- Claim C2: the pivot returns one row per distinct timestamp of the
case-insensitively filtered readings, every row and the header have
`1 + len(tank_order) * 6` columns, and an empty filter result yields an
empty row sequence rather than an error. -/
theorem C2_pivot_row_count_and_width (rs : List TankReading) (g : String) :
    (Grade_Extract rs g).rows.length
        = ((gradeFilter g rs).map TankReading.background_time_stamp).dedup.length ∧
    (∀ row ∈ (Grade_Extract rs g).rows,
        row.length = 1 + 6 * (tankOrder (sortReadings (gradeFilter g rs))).length) ∧
    (Grade_Extract rs g).header.length
        = 1 + 6 * (tankOrder (sortReadings (gradeFilter g rs))).length ∧
    (gradeFilter g rs = [] → (Grade_Extract rs g).rows = []) := by
  refine ⟨?_, ?_, ?_, ?_⟩
  · rw [Grade_Extract_rows_def, List.length_map, tsAxis_length]
    exact ((sortReadings_perm
      (gradeFilter g rs)).map TankReading.background_time_stamp).dedup.length_eq
  · intro row hrow
    rw [Grade_Extract_rows_def] at hrow
    rcases List.mem_map.mp hrow with ⟨t, _, rfl⟩
    exact buildRow_length _ _ _
  · have hheader : (Grade_Extract rs g).header
        = "BACKGROUND_TIME_STAMP" ::
          ((tankOrder (sortReadings (gradeFilter g rs))).map
            (fun _ => "TANK_NAME" :: tank_cols)).flatten := rfl
    rw [hheader]
    simp only [List.length_cons]
    rw [flatten_length_six _ (headerBlocks_length_six _), List.length_map]
    omega
  · intro h
    rw [Grade_Extract_rows_def, h]
    rfl

/-- Witness for C2: on the sample set the first ULP row has the stated
width, and the KERO filter matches nothing and yields no rows. -/
theorem C2_pivot_row_count_and_width_witness :
    ((Grade_Extract sampleSet "ULP").rows.getD 0 []).length
        = 1 + 6 * (tankOrder (sortReadings (gradeFilter "ULP" sampleSet))).length ∧
    (Grade_Extract sampleSet "KERO").rows = [] :=
  ⟨(C2_pivot_row_count_and_width sampleSet "ULP").2.1 _ (by decide),
    (C2_pivot_row_count_and_width sampleSet "KERO").2.2.2 (by decide)⟩

/-- Claim C3: the tank order of one pivot call is the sorted (ascending,
lexicographic) duplicate-free list of the tank identifiers of the filtered
rows, and every output row is built from that one order: its `i`-th block
is the block of the `i`-th tank of the order. -/
theorem C3_tank_order_fixed (rs : List TankReading) (g : String) :
    List.Sorted strLeP (tankOrder (sortReadings (gradeFilter g rs))) ∧
    (tankOrder (sortReadings (gradeFilter g rs))).Nodup ∧
    (∀ t, t ∈ tankOrder (sortReadings (gradeFilter g rs)) ↔
        t ∈ (gradeFilter g rs).map TankReading.tank_name) ∧
    (∀ row ∈ (Grade_Extract rs g).rows, ∃ t : Nat,
        row = buildRow (sortReadings (gradeFilter g rs))
            (tankOrder (sortReadings (gradeFilter g rs))) t ∧
        ∀ i, i < (tankOrder (sortReadings (gradeFilter g rs))).length →
          rowBlock row i = tankBlock (sortReadings (gradeFilter g rs)) t
              ((tankOrder (sortReadings (gradeFilter g rs))).getD i "")) := by
  refine ⟨tankOrder_sorted _, tankOrder_nodup _, ?_, ?_⟩
  · intro t
    rw [tankOrder_mem]
    exact ((sortReadings_perm (gradeFilter g rs)).map TankReading.tank_name).mem_iff
  · intro row hrow
    rw [Grade_Extract_rows_def] at hrow
    rcases List.mem_map.mp hrow with ⟨t, _, rfl⟩
    exact ⟨t, rfl, fun i hi => rowBlock_buildRow _ _ _ i hi⟩

/-- Witness for C3 on the sample set with the empty (match-all) filter. -/
theorem C3_tank_order_fixed_witness :
    (tankOrder (sortReadings (gradeFilter "" sampleSet))).Nodup ∧
    ("TKA" ∈ (gradeFilter "" sampleSet).map TankReading.tank_name) ∧
    (∃ t : Nat, (Grade_Extract sampleSet "").rows.getD 0 []
        = buildRow (sortReadings (gradeFilter "" sampleSet))
            (tankOrder (sortReadings (gradeFilter "" sampleSet))) t ∧
      rowBlock ((Grade_Extract sampleSet "").rows.getD 0 []) 1
        = tankBlock (sortReadings (gradeFilter "" sampleSet)) t
            ((tankOrder (sortReadings (gradeFilter "" sampleSet))).getD 1 "")) := by
  have h := C3_tank_order_fixed sampleSet ""
  refine ⟨h.2.1, (h.2.2.1 "TKA").mp (by decide), ?_⟩
  obtain ⟨t, ht, hb⟩ := h.2.2.2 ((Grade_Extract sampleSet "").rows.getD 0 []) (by decide)
  exact ⟨t, ht, hb 1 (by decide)⟩

/-- Claim C4: every (timestamp, tank) cell of the pivot grid is rendered as
a block whose first field is the tank identifier; when the tank has no
reading at that timestamp the block is the identifier followed by exactly
five null placeholders. -/
theorem C4_missing_tank_placeholder (rs : List TankReading) (g : String)
    (t : Nat) (i : Nat)
    (ht : t ∈ tsAxis (sortReadings (gradeFilter g rs)))
    (hi : i < (tankOrder (sortReadings (gradeFilter g rs))).length) :
    buildRow (sortReadings (gradeFilter g rs))
        (tankOrder (sortReadings (gradeFilter g rs))) t ∈ (Grade_Extract rs g).rows ∧
    (rowBlock (buildRow (sortReadings (gradeFilter g rs))
        (tankOrder (sortReadings (gradeFilter g rs))) t) i).getD 0 Cell.null
      = Cell.str ((tankOrder (sortReadings (gradeFilter g rs))).getD i "") ∧
    ((sortReadings (gradeFilter g rs)).find?
        (fun r => r.background_time_stamp == t &&
          r.tank_name == (tankOrder (sortReadings (gradeFilter g rs))).getD i "") = none →
      rowBlock (buildRow (sortReadings (gradeFilter g rs))
          (tankOrder (sortReadings (gradeFilter g rs))) t) i
        = [Cell.str ((tankOrder (sortReadings (gradeFilter g rs))).getD i ""),
            Cell.null, Cell.null, Cell.null, Cell.null, Cell.null]) := by
  refine ⟨?_, ?_, ?_⟩
  · rw [Grade_Extract_rows_def]
    exact List.mem_map_of_mem _ ht
  · rw [rowBlock_buildRow _ _ _ i hi]
    unfold tankBlock
    split <;> rfl
  · intro hnone
    rw [rowBlock_buildRow _ _ _ i hi]
    unfold tankBlock
    rw [hnone]

/-- Witness for C4: in the sample set tank TKB has no reading at bucket
240, and its block there is the name followed by five nulls. -/
theorem C4_missing_tank_placeholder_witness :
    rowBlock (buildRow (sortReadings (gradeFilter "" sampleSet))
        (tankOrder (sortReadings (gradeFilter "" sampleSet))) 240) 1
      = [Cell.str ((tankOrder (sortReadings (gradeFilter "" sampleSet))).getD 1 ""),
          Cell.null, Cell.null, Cell.null, Cell.null, Cell.null] :=
  (C4_missing_tank_placeholder sampleSet "" 240 1 (by decide) (by decide)).2.2 (by decide)

/-- Claim C5: selection input "5" (the ALL code as the whole input) expands
to the four known grades, the pivot runs once per grade, and four distinct
report files are written. -/
theorem C5_all_code_expands_to_four_grades (combined : List TankReading) :
    selectedGrades (stripStr "5") = ["DIESEL", "ULP", "KERO", "JET A1"] ∧
    (save_to_csv combined "5").files =
      [Grade_Extract combined "DIESEL", Grade_Extract combined "ULP",
        Grade_Extract combined "KERO", Grade_Extract combined "JET A1"] ∧
    (save_to_csv combined "5").files.map CsvFile.name =
      ["DIESEL Grade_report.csv", "ULP Grade_report.csv",
        "KERO Grade_report.csv", "JET A1 Grade_report.csv"] ∧
    ((save_to_csv combined "5").files.map CsvFile.name).Nodup := by
  have hfiles : (save_to_csv combined "5").files
      = [Grade_Extract combined "DIESEL", Grade_Extract combined "ULP",
          Grade_Extract combined "KERO", Grade_Extract combined "JET A1"] := rfl
  have hnames : (save_to_csv combined "5").files.map CsvFile.name
      = ["DIESEL Grade_report.csv", "ULP Grade_report.csv",
          "KERO Grade_report.csv", "JET A1 Grade_report.csv"] := by
    rw [hfiles]
    rfl
  refine ⟨by decide, hfiles, hnames, ?_⟩
  rw [hnames]
  decide

/-- Claim C6: unknown grade codes are dropped rather than fatal, and an
empty resolved selection writes no report and informs the user. -/
theorem C6_invalid_codes_dropped (combined : List TankReading) (choice : String)
    (h : selectedGrades (stripStr choice) = []) :
    (save_to_csv combined choice).files = [] ∧
    (save_to_csv combined choice).messages = ["No valid grade selected. Exiting."] ∧
    selectedGrades (stripStr "1,9") = ["DIESEL"] := by
  have hres : save_to_csv combined choice
      = { messages := ["No valid grade selected. Exiting."], files := [] } := by
    unfold save_to_csv
    rw [h]
    rfl
  exact ⟨by rw [hres], by rw [hres], by decide⟩

/-- Witness for C6: input "9" resolves to the empty selection. -/
theorem C6_invalid_codes_dropped_witness :
    (save_to_csv sampleSet "9").files = [] ∧
    (save_to_csv sampleSet "9").messages = ["No valid grade selected. Exiting."] :=
  ⟨(C6_invalid_codes_dropped sampleSet "9" (by decide)).1,
    (C6_invalid_codes_dropped sampleSet "9" (by decide)).2.1⟩

/-- Claim C9: the ALL code expands only when the whole trimmed input is
"5"; in input "1,5" the code 5 contributes the literal grade "All", whose
report filters product names for the substring "All" case-insensitively. -/
theorem C9_all_expansion_only_for_whole_input (combined : List TankReading) :
    (∀ c : String, grade_map c = some "All" ↔ c = "5") ∧
    selectedGrades (stripStr "1,5") = ["DIESEL", "All"] ∧
    (save_to_csv combined "1,5").files =
      [Grade_Extract combined "DIESEL", Grade_Extract combined "All"] ∧
    (Grade_Extract combined "All").name = "All Grade_report.csv" ∧
    gradeFilter "All" [sampleSmall, sampleB1] = [sampleSmall] := by
  refine ⟨?_, by decide, rfl, rfl, by decide⟩
  intro c
  unfold grade_map
  split_ifs with h1 h2 h3 h4 h5
  · subst h1; decide
  · subst h2; decide
  · subst h3; decide
  · subst h4; decide
  · subst h5; decide
  · simp [h5]

/-- Claim C10: a selected grade with zero matching readings still yields a
written report file holding only the header column BACKGROUND_TIME_STAMP
and no data rows; if the grade is selected, the file is among the written
files rather than suppressed. -/
theorem C10_empty_grade_still_writes_file (combined : List TankReading) (g : String)
    (h : gradeFilter g combined = []) :
    Grade_Extract combined g =
      { name := g ++ " Grade_report.csv"
        header := ["BACKGROUND_TIME_STAMP"], rows := [] } ∧
    ∀ choice, g ∈ selectedGrades (stripStr choice) →
      Grade_Extract combined g ∈ (save_to_csv combined choice).files := by
  constructor
  · unfold Grade_Extract
    rw [h]
    rfl
  · intro choice hmem
    have hne : (selectedGrades (stripStr choice)).isEmpty = false := by
      cases hsel : selectedGrades (stripStr choice) with
      | nil => rw [hsel] at hmem; exact absurd hmem (List.not_mem_nil g)
      | cons a tl => rfl
    unfold save_to_csv
    rw [hne]
    simp only [Bool.false_eq_true, if_false]
    exact List.mem_map_of_mem _ hmem

/-- Witness for C10: no sample reading matches KERO, yet selecting code 3
writes the KERO header-only report. -/
theorem C10_empty_grade_still_writes_file_witness :
    Grade_Extract sampleSet "KERO" =
      { name := "KERO Grade_report.csv"
        header := ["BACKGROUND_TIME_STAMP"], rows := [] } ∧
    Grade_Extract sampleSet "KERO" ∈ (save_to_csv sampleSet "3").files :=
  ⟨(C10_empty_grade_still_writes_file sampleSet "KERO" (by decide)).1,
    (C10_empty_grade_still_writes_file sampleSet "KERO" (by decide)).2 "3" (by decide)⟩

/-! ### Aggregation loop lemmas -/

theorem combineLoop_data (files : List SourceFile) :
    (combineLoop files).1
      = files.filterMap (fun f => (Except.toOption f.content).map read_table_data) := by
  induction files with
  | nil => rfl
  | cons f fs ih =>
    cases hc : f.content with
    | ok raws => simp [combineLoop, hc, Except.toOption, ih]
    | error e => simp [combineLoop, hc, Except.toOption, ih]

theorem combineLoop_err (files : List SourceFile) :
    ∀ f ∈ files, ∀ e, f.content = Except.error e →
      ("Error processing " ++ f.name ++ ": " ++ e) ∈ (combineLoop files).2 := by
  induction files with
  | nil => intro f hf; exact absurd hf (List.not_mem_nil f)
  | cons g fs ih =>
    intro f hf e he
    rcases List.mem_cons.mp hf with rfl | hf2
    · simp [combineLoop, he]
    · cases hc : g.content with
      | ok raws =>
        simp only [combineLoop, hc, List.mem_cons]
        exact Or.inr (ih f hf2 e he)
      | error e2 =>
        simp only [combineLoop, hc, List.mem_cons]
        exact Or.inr (ih f hf2 e he)

theorem combineLoop_data_mem (files : List SourceFile) :
    ∀ d ∈ (combineLoop files).1, ∃ raws, d = read_table_data raws := by
  induction files with
  | nil => intro d hd; exact absurd hd (List.not_mem_nil d)
  | cons f fs ih =>
    intro d hd
    cases hc : f.content with
    | ok raws =>
      simp only [combineLoop, hc, List.mem_cons] at hd
      rcases hd with rfl | hd2
      · exact ⟨raws, rfl⟩
      · exact ih d hd2
    | error e =>
      simp only [combineLoop, hc] at hd
      exact ih d hd

/-- Claim C7: per-file read failures are logged and skipped while the loop
continues, the accumulated data is exactly the data of the files that read
successfully (in discovery order), and when no file yields data the run
reports the empty-result condition and writes nothing. -/
theorem C7_failures_skipped (files : List SourceFile) (output_file choice : String) :
    (combineLoop files).1
        = files.filterMap (fun f => (Except.toOption f.content).map read_table_data) ∧
    (∀ f ∈ files, ∀ e, f.content = Except.error e →
        ("Error processing " ++ f.name ++ ": " ++ e) ∈
          (combine_mdb_files_to_single_csv files output_file choice).messages) ∧
    ((combine_mdb_files_to_single_csv files output_file choice).combined
        = if (files.filterMap
              (fun f => (Except.toOption f.content).map read_table_data)).isEmpty
          then none
          else some ((files.filterMap
              (fun f => (Except.toOption f.content).map read_table_data)).flatten)) ∧
    ((combineLoop files).1.isEmpty = true →
        "No valid .mdb files found with TankRecords table" ∈
          (combine_mdb_files_to_single_csv files output_file choice).messages ∧
        (combine_mdb_files_to_single_csv files output_file choice).written = []) := by
  refine ⟨combineLoop_data files, ?_, ?_, ?_⟩
  · intro f hf e he
    have hm := combineLoop_err files f hf e he
    unfold combine_mdb_files_to_single_csv
    split
    · exact List.mem_append_left _ hm
    · exact List.mem_append_left _ hm
  · have hcomb : (combine_mdb_files_to_single_csv files output_file choice).combined
        = if (combineLoop files).1.isEmpty then none
          else some ((combineLoop files).1.flatten) := by
      unfold combine_mdb_files_to_single_csv
      split
      · rfl
      · rfl
    rw [hcomb, combineLoop_data files]
  · intro hempty
    have hres : combine_mdb_files_to_single_csv files output_file choice
        = { messages := (combineLoop files).2 ++
              ["No valid .mdb files found with TankRecords table"]
            combined := none
            written := [] } := by
      unfold combine_mdb_files_to_single_csv
      rw [hempty]
      rfl
    rw [hres]
    exact ⟨List.mem_append_right _ (by simp), rfl⟩

/-- Witness for C7: three discovered files of which the second lacks the
table; its failure is logged, the combined set is the two good files' rows,
and an all-failing run reports the empty result and writes nothing. -/
theorem C7_failures_skipped_witness :
    ("Error processing b.mdb: no table" ∈
        (combine_mdb_files_to_single_csv [fileOk1, fileBad, fileOk2]
          "out.csv" "1").messages) ∧
    (combine_mdb_files_to_single_csv [fileOk1, fileBad, fileOk2] "out.csv" "1").combined
        = some (read_table_data [bugRaw] ++ read_table_data [c8raw]) ∧
    ("No valid .mdb files found with TankRecords table" ∈
        (combine_mdb_files_to_single_csv [fileBad] "out.csv" "1").messages) ∧
    (combine_mdb_files_to_single_csv [fileBad] "out.csv" "1").written = [] := by
  have h3 := C7_failures_skipped [fileOk1, fileBad, fileOk2] "out.csv" "1"
  have h1 := C7_failures_skipped [fileBad] "out.csv" "1"
  refine ⟨h3.2.1 fileBad (by decide) "no table" rfl, ?_,
    (h1.2.2.2 (by decide)).1, (h1.2.2.2 (by decide)).2⟩
  rw [h3.2.2.1]
  decide

/-! ### Numeric lemmas for the normalization -/

theorem round2min_mod (t : Nat) : round2min t % 120 = 0 := by
  unfold round2min
  split_ifs <;> simp [Nat.mul_mod_right]

theorem round2min_close (t : Nat) :
    round2min t ≤ t + 60 ∧ t ≤ round2min t + 60 := by
  unfold round2min
  split_ifs <;> constructor <;> omega

theorem rheDiv_bounds (n : Int) (d : Nat) (hd : 0 < d) :
    -(d:Int) ≤ 2 * ((d:Int) * rheDiv n d - n) ∧
      2 * ((d:Int) * rheDiv n d - n) ≤ (d:Int) := by
  have hdz : (d:Int) ≠ 0 := by
    simp only [ne_eq, Int.natCast_eq_zero]
    omega
  have hqr : (d:Int) * Int.ediv n d + Int.emod n d = n := Int.ediv_add_emod n d
  have hr0 : 0 ≤ Int.emod n d := Int.emod_nonneg n hdz
  have hrd : Int.emod n d < (d:Int) := Int.emod_lt_of_pos n (by exact_mod_cast hd)
  unfold rheDiv
  split_ifs with h1 h2 h3
  · constructor <;> linarith
  · have he : (d:Int) * (Int.ediv n d + 1) = (d:Int) * Int.ediv n d + d := by ring
    rw [he]
    constructor <;> linarith
  · constructor <;> linarith
  · have he : (d:Int) * (Int.ediv n d + 1) = (d:Int) * Int.ediv n d + d := by ring
    rw [he]
    constructor <;> linarith

theorem round2_spec (x : ℚ) :
    (∃ k : Int, round2 x = mkRat k 100) ∧
    round2 x - x ≤ 1/200 ∧ -(1/200 : ℚ) ≤ round2 x - x := by
  obtain ⟨hb1, hb2⟩ := rheDiv_bounds (100 * x.num) x.den x.den_pos
  set k := rheDiv (100 * x.num) x.den with hk
  have hd : (0:ℚ) < (x.den : ℚ) := by exact_mod_cast x.den_pos
  have h100 : round2 x = (k : ℚ) / 100 := by
    rw [show round2 x = mkRat k 100 from rfl, Rat.mkRat_eq_div]
    norm_num
  have hb1q : -((x.den:ℚ)) ≤ 2 * ((x.den:ℚ) * (k:ℚ) - 100 * (x.num:ℚ)) := by
    exact_mod_cast hb1
  have hb2q : 2 * ((x.den:ℚ) * (k:ℚ) - 100 * (x.num:ℚ)) ≤ (x.den:ℚ) := by
    exact_mod_cast hb2
  refine ⟨⟨k, rfl⟩, ?_, ?_⟩
  · rw [h100, show x = (x.num:ℚ)/(x.den:ℚ) from (Rat.num_div_den x).symm,
      div_sub_div _ _ (by norm_num : (100:ℚ) ≠ 0) (ne_of_gt hd),
      div_le_div_iff₀ (by positivity) (by norm_num : (0:ℚ) < 200)]
    linarith
  · rw [h100, show x = (x.num:ℚ)/(x.den:ℚ) from (Rat.num_div_den x).symm,
      div_sub_div _ _ (by norm_num : (100:ℚ) ≠ 0) (ne_of_gt hd),
      le_div_iff₀ (by positivity)]
    linarith

theorem ediv_bounds (n : Int) (d : Nat) (hd : 0 < d) :
    (d:Int) * Int.ediv n d ≤ n ∧ n < (d:Int) * Int.ediv n d + d := by
  have hdz : (d:Int) ≠ 0 := by
    simp only [ne_eq, Int.natCast_eq_zero]
    omega
  have hqr : (d:Int) * Int.ediv n d + Int.emod n d = n := Int.ediv_add_emod n d
  have hr0 : 0 ≤ Int.emod n d := Int.emod_nonneg n hdz
  have hrd : Int.emod n d < (d:Int) := Int.emod_lt_of_pos n (by exact_mod_cast hd)
  constructor <;> linarith

theorem ratTrunc_spec (x : ℚ) :
    ((0:ℚ) ≤ x → ((ratTrunc x : ℚ) ≤ x ∧ x < (ratTrunc x : ℚ) + 1)) ∧
    (x < 0 → (x ≤ (ratTrunc x : ℚ) ∧ (ratTrunc x : ℚ) - 1 < x)) := by
  have hd : (0:ℚ) < (x.den : ℚ) := by exact_mod_cast x.den_pos
  constructor
  · intro hx
    have hnum : 0 ≤ x.num := Rat.num_nonneg.mpr hx
    have htd : ratTrunc x = Int.ediv x.num x.den := by
      unfold ratTrunc
      exact Int.tdiv_eq_ediv hnum (by positivity)
    obtain ⟨hb1, hb2⟩ := ediv_bounds x.num x.den x.den_pos
    set e := Int.ediv x.num x.den with he
    have hb1q : ((x.den:ℚ)) * ((e : Int) : ℚ) ≤ (x.num:ℚ) := by exact_mod_cast hb1
    have hb2q : (x.num:ℚ) < (x.den:ℚ) * ((e : Int) : ℚ) + (x.den:ℚ) := by
      exact_mod_cast hb2
    rw [htd]
    constructor
    · rw [show x = (x.num:ℚ)/(x.den:ℚ) from (Rat.num_div_den x).symm, le_div_iff₀ hd]
      linarith
    · rw [show x = (x.num:ℚ)/(x.den:ℚ) from (Rat.num_div_den x).symm, div_lt_iff₀ hd]
      linarith
  · intro hx
    have hnum : x.num < 0 := Rat.num_neg.mpr hx
    have htd : ratTrunc x = -(Int.ediv (-x.num) x.den) := by
      unfold ratTrunc
      have h1 : Int.tdiv x.num x.den = -(Int.tdiv (-x.num) (x.den : Int)) := by
        rw [← Int.neg_tdiv, neg_neg]
      rw [h1, Int.tdiv_eq_ediv (by omega) (by positivity)]
      rfl
    obtain ⟨hb1, hb2⟩ := ediv_bounds (-x.num) x.den x.den_pos
    set e := Int.ediv (-x.num) x.den with he
    have hb1q : ((x.den:ℚ)) * ((e : Int) : ℚ) ≤ -(x.num:ℚ) := by exact_mod_cast hb1
    have hb2q : -(x.num:ℚ) < (x.den:ℚ) * ((e : Int) : ℚ) + (x.den:ℚ) := by
      exact_mod_cast hb2
    rw [htd]
    constructor
    · rw [show x = (x.num:ℚ)/(x.den:ℚ) from (Rat.num_div_den x).symm, div_le_iff₀ hd]
      push_cast
      linarith
    · rw [show x = (x.num:ℚ)/(x.den:ℚ) from (Rat.num_div_den x).symm, lt_div_iff₀ hd]
      push_cast
      linarith

/-- Claim C8: the Source Reader normalization rounds the product
temperature to 2 decimal places (within half a hundredth, landing on a
hundredth), coerces GSV to an integer by dropping the fractional part
(truncation toward zero, never rounding away), quantizes the timestamp onto
the 2-minute grid (a multiple of 120 s within 60 s of the original), leaves
the other fields unchanged, and every reading the pivot can see through the
aggregation pipeline is already so quantized. -/
theorem C8_normalization_semantics (r : RawReading) :
    (normalize r).background_time_stamp % 120 = 0 ∧
    ((normalize r).background_time_stamp ≤ r.background_time_stamp + 60 ∧
      r.background_time_stamp ≤ (normalize r).background_time_stamp + 60) ∧
    (∃ k : Int, (normalize r).product_temp = mkRat k 100) ∧
    ((normalize r).product_temp - r.product_temp ≤ 1/200 ∧
      -(1/200 : ℚ) ≤ (normalize r).product_temp - r.product_temp) ∧
    ((0:ℚ) ≤ r.gsv →
      (((normalize r).gsv : ℚ) ≤ r.gsv ∧ r.gsv < ((normalize r).gsv : ℚ) + 1)) ∧
    (r.gsv < 0 →
      (r.gsv ≤ ((normalize r).gsv : ℚ) ∧ ((normalize r).gsv : ℚ) - 1 < r.gsv)) ∧
    ((normalize r).tank_name = r.tank_name ∧
      (normalize r).product_name = r.product_name ∧
      (normalize r).correction_factor = r.correction_factor ∧
      (normalize r).product_level = r.product_level) ∧
    (∀ (files : List SourceFile) (out choice : String) (rs : List TankReading),
      (combine_mdb_files_to_single_csv files out choice).combined = some rs →
      ∀ x ∈ rs, x.background_time_stamp % 120 = 0) := by
  obtain ⟨hk, hub, hlb⟩ := round2_spec r.product_temp
  obtain ⟨hpos, hneg⟩ := ratTrunc_spec r.gsv
  refine ⟨round2min_mod _, round2min_close _, hk, ⟨hub, hlb⟩, hpos, hneg,
    ⟨rfl, rfl, rfl, rfl⟩, ?_⟩
  intro files out choice rs hcomb x hx
  have hrs : rs = (combineLoop files).1.flatten := by
    unfold combine_mdb_files_to_single_csv at hcomb
    split at hcomb
    · simp at hcomb
    · exact (Option.some.inj hcomb).symm
  rw [hrs] at hx
  rcases List.mem_flatten.mp hx with ⟨d, hd, hxd⟩
  obtain ⟨raws, rfl⟩ := combineLoop_data_mem files d hd
  rcases List.mem_map.mp hxd with ⟨raw, _, rfl⟩
  exact round2min_mod _

/-- Witness for C8: the sample raw rows exercise both GSV sign cases (100.1
truncates to 100, -3.5 truncates to -3) and the pipeline quantization. -/
theorem C8_normalization_semantics_witness :
    (c8raw.gsv < 0) ∧
    (c8raw.gsv ≤ ((normalize c8raw).gsv : ℚ) ∧
      ((normalize c8raw).gsv : ℚ) - 1 < c8raw.gsv) ∧
    ((0:ℚ) ≤ bugRaw.gsv) ∧
    (((normalize bugRaw).gsv : ℚ) ≤ bugRaw.gsv ∧
      bugRaw.gsv < ((normalize bugRaw).gsv : ℚ) + 1) ∧
    (∀ x ∈ [normalize bugRaw], x.background_time_stamp % 120 = 0) := by
  refine ⟨by decide, (C8_normalization_semantics c8raw).2.2.2.2.2.1 (by decide),
    by decide, (C8_normalization_semantics bugRaw).2.2.2.2.1 (by decide), ?_⟩
  exact (C8_normalization_semantics bugRaw).2.2.2.2.2.2.2 bugFiles
    "Combined Tank records.csv" "1" [normalize bugRaw] (by decide)

end EnrafReport
